import Mathlib

/-!
Verification of the photo-to-line-vectorizer orchestration core.

Shallow embedding of:
  * `backend/app/storage/jobs.py`           (JobStorage: create/get/update/set_status/set_result/delete)
  * `backend/app/repositories/job_repository.py` (Redis and in-memory repositories)
  * `backend/app/api/websocket.py`          (ConnectionManager broadcasts)
  * `backend/app/extensions/base.py`        (select_provider, execute_hooks)
  * `backend/app/extensions/hooks.py`       (hook registration)
  * `backend/app/services/job_service.py`   (JobService.process_job orchestrator)

Job records are Python dicts with a fixed schema; they are embedded as a
structure parameterised by the type `Val` of statistics values (the core never
inspects statistic values, only whether the statistics dict is empty).
Stores (the in-memory dict backend and the Redis key space) are embedded as
functions from keys to optional records.  Python truthiness checks on strings
and dicts (`if error:`, `if stats:`) are embedded as explicit emptiness tests.
-/

namespace PhotoVec

/-- `ProcessingStatus` enum from `backend/app/api/models.py`. -/
inductive ProcessingStatus where
  | pending
  | processing
  | completed
  | failed
deriving DecidableEq, Repr

/-- The `.value` string of each `ProcessingStatus` member. -/
def ProcessingStatus.value : ProcessingStatus → String
  | .pending => "pending"
  | .processing => "processing"
  | .completed => "completed"
  | .failed => "failed"

/-- Statistics dict (`stats`): keys to opaque statistic values. -/
abbrev Stats (Val : Type) := List (String × Val)

/-- The job-record dict created by `JobStorage.create_job` and mutated by
`update_job`; fields mirror the `job_data` dict in `storage/jobs.py`. -/
structure JobRecord (Val : Type) where
  jobId : String
  filename : String
  inputPath : String
  outputPath : Option String
  status : ProcessingStatus
  error : Option String
  stats : Option (Stats Val)
  deviceUsed : Option String
deriving DecidableEq, Repr

/-- A job store: the in-memory dict backend of `JobStorage`
(`self._memory_storage`), embedded as a map from job id to record. -/
abbrev Store (Val : Type) := String → Option (JobRecord Val)

/-- The empty store. -/
def emptyStore {Val : Type} : Store Val := fun _ => none

/-- `JobStorage.create_job`: builds the fresh `job_data` dict and stores it
unconditionally under `job_id` (no existence check — an existing record is
silently replaced). -/
def create_job {Val : Type} (st : Store Val) (jobId filename inputPath : String)
    (status : ProcessingStatus) : Store Val :=
  let jobData : JobRecord Val :=
    { jobId := jobId
      filename := filename
      inputPath := inputPath
      outputPath := none
      status := status
      error := none
      stats := none
      deviceUsed := none }
  fun k => if k = jobId then some jobData else st k

/-- `JobStorage.get_job`. -/
def get_job {Val : Type} (st : Store Val) (jobId : String) : Option (JobRecord Val) :=
  st jobId

/-- An `updates` dict passed to `JobStorage.update_job`: for each schema key,
`none` means the key is absent from the dict, `some v` means the key is
present with value `v` (the value itself may be Python `None`, hence the
nested options for nullable fields). -/
structure JobUpdates (Val : Type) where
  jobId : Option String
  filename : Option String
  inputPath : Option String
  outputPath : Option (Option String)
  status : Option ProcessingStatus
  error : Option (Option String)
  stats : Option (Option (Stats Val))
  deviceUsed : Option (Option String)
deriving DecidableEq, Repr

/-- The empty `updates` dict. -/
def JobUpdates.empty {Val : Type} : JobUpdates Val :=
  { jobId := none, filename := none, inputPath := none, outputPath := none
    status := none, error := none, stats := none, deviceUsed := none }

/-- Python `job.update(updates)`: every key present in `updates` overwrites
the field of the record; absent keys leave the field unchanged. -/
def JobRecord.applyUpdates {Val : Type} (job : JobRecord Val) (u : JobUpdates Val) :
    JobRecord Val :=
  { jobId := u.jobId.getD job.jobId
    filename := u.filename.getD job.filename
    inputPath := u.inputPath.getD job.inputPath
    outputPath := u.outputPath.getD job.outputPath
    status := u.status.getD job.status
    error := u.error.getD job.error
    stats := u.stats.getD job.stats
    deviceUsed := u.deviceUsed.getD job.deviceUsed }

/-- `JobStorage.update_job`: fetches the record, merges `updates` into it and
stores it back, returning `true`; returns `false` (storing nothing) when the
id is unknown. -/
def update_job {Val : Type} (st : Store Val) (jobId : String) (updates : JobUpdates Val) :
    Store Val × Bool :=
  match st jobId with
  | none => (st, false)
  | some job =>
      (fun k => if k = jobId then some (job.applyUpdates updates) else st k, true)

/-- `JobStorage.set_status`: updates `status`, and `error` only when the
`error` argument is truthy (not `None` and not the empty string). -/
def set_status {Val : Type} (st : Store Val) (jobId : String)
    (status : ProcessingStatus) (error : Option String) : Store Val × Bool :=
  let updates : JobUpdates Val :=
    { (JobUpdates.empty : JobUpdates Val) with
      status := some status
      error :=
        match error with
        | some e => if e = "" then none else some (some e)
        | none => none }
  update_job st jobId updates

/-- `JobStorage.set_result`: updates `output_path` and `status := COMPLETED`,
and `stats` / `device_used` only when truthy (non-empty). -/
def set_result {Val : Type} (st : Store Val) (jobId : String) (outputPath : String)
    (stats : Option (Stats Val)) (deviceUsed : Option String) : Store Val × Bool :=
  let updates : JobUpdates Val :=
    { (JobUpdates.empty : JobUpdates Val) with
      outputPath := some (some outputPath)
      status := some ProcessingStatus.completed
      stats :=
        match stats with
        | some s => if s.isEmpty then none else some (some s)
        | none => none
      deviceUsed :=
        match deviceUsed with
        | some d => if d = "" then none else some (some d)
        | none => none }
  update_job st jobId updates

/-- `JobStorage.delete_job` (in-memory branch). -/
def delete_job {Val : Type} (st : Store Val) (jobId : String) : Store Val × Bool :=
  match st jobId with
  | some _ => (fun k => if k = jobId then none else st k, true)
  | none => (st, false)

namespace InMemoryJobRepository

/-- `InMemoryJobRepository.create` from `repositories/job_repository.py`:
raises `ValueError` when the id already exists, otherwise stores the job. -/
def create {Val : Type} (storage : Store Val) (job : JobRecord Val) :
    Except String (Store Val) :=
  match storage job.jobId with
  | some _ => .error ("Job " ++ job.jobId ++ " already exists")
  | none => .ok (fun k => if k = job.jobId then some job else storage k)

end InMemoryJobRepository

namespace RedisJobRepository

/-- `RedisJobRepository._get_key`. -/
def getKey (jobId : String) : String := "job:" ++ jobId

/-- `RedisJobRepository.create`: checks `EXISTS job:<id>` and raises
`ValueError` when present, otherwise `SETEX`es the serialized record (the
JSON round trip is the identity at this level; the TTL is not modelled). -/
def create {Val : Type} (db : Store Val) (job : JobRecord Val) :
    Except String (Store Val) :=
  match db (getKey job.jobId) with
  | some _ => .error ("Job " ++ job.jobId ++ " already exists")
  | none => .ok (fun k => if k = getKey job.jobId then some job else db k)

end RedisJobRepository

/-- A provider as seen by `AbstractStaticExtension.select_provider`: a name
and the (pure, side-effect-free per the provider contract) result of its
`is_available()` probe. -/
structure Provider where
  name : String
  available : Bool
deriving DecidableEq, Repr

/-- The preference loop of `select_provider`: for each preferred name, look
up the first provider with that name (`next(p for p in providers ...)`) and
return it when available; otherwise continue with the remaining names. -/
def tryPreferences (providers : List Provider) : List String → Option Provider
  | [] => none
  | pref :: rest =>
      match providers.find? (fun p => p.name == pref) with
      | some p => if p.available then some p else tryPreferences providers rest
      | none => tryPreferences providers rest

/-- `AbstractStaticExtension.select_provider`: tries the preference list when
it is truthy (present and non-empty), then falls back to the first available
provider in discovery order, and otherwise raises
`RuntimeError("No available providers for extension ...")`. -/
def select_provider (extName : String) (providers : List Provider)
    (preferences : Option (List String)) : Except String Provider :=
  let fromPrefs : Option Provider :=
    match preferences with
    | some prefs => if prefs.isEmpty then none else tryPreferences providers prefs
    | none => none
  match fromPrefs with
  | some p => .ok p
  | none =>
      match providers.find? (fun p => p.available) with
      | some p => .ok p
      | none => .error ("No available providers for extension " ++ extName)

/-- Does the preference name hit an available provider?  (The first provider
carrying the name is consulted, as in the generator expression.) -/
def prefAvailable (providers : List Provider) (nm : String) : Bool :=
  match providers.find? (fun p => p.name == nm) with
  | some p => p.available
  | none => false

/-- The `_hooks` class dict of `AbstractStaticExtension`: a map from
`(stage, timing)` to the list of `(priority, handler)` pairs in registration
order; a missing key is the empty list.  Handlers are identified by an
abstract type `α`. -/
abbrev HooksMap (α : Type) := (String × String) → List (Int × α)

/-- The initially empty `_hooks` dict. -/
def emptyHooks {α : Type} : HooksMap α := fun _ => []

/-- The `hook` decorator of `extensions/hooks.py`: appends
`(priority, func)` to the list under `(stage, timing)`. -/
def hookRegister {α : Type} (m : HooksMap α) (stage timing : String)
    (priority : Int) (handler : α) : HooksMap α :=
  fun k => if k = (stage, timing) then m k ++ [(priority, handler)] else m k

/-- Python `sorted(hooks, key=lambda x: x[0])`: a stable ascending sort on
the priority component, embedded as insertion sort (extensionally equal to
any stable sort by key). -/
def sortHooks {α : Type} (hooks : List (Int × α)) : List (Int × α) :=
  List.insertionSort (fun a b => a.1 ≤ b.1) hooks

/-- `AbstractStaticExtension.execute_hooks`: sorts the handlers registered
under `(stage, timing)` by priority and runs them in order; the result is the
execution sequence of handlers. -/
def execute_hooks {α : Type} (m : HooksMap α) (stage timing : String) : List α :=
  (sortHooks (m (stage, timing))).map (fun x => x.2)

instance {α : Type} :
    IsTotal (Int × α) (fun a b => a.1 ≤ b.1) :=
  ⟨fun a b => le_total a.1 b.1⟩

instance {α : Type} :
    IsTrans (Int × α) (fun a b => a.1 ≤ b.1) :=
  ⟨fun _ _ _ h1 h2 => le_trans h1 h2⟩

/-- A WebSocket channel: an identity plus whether `send_text` succeeds on it
(a dead channel raises, a live one delivers). -/
structure Channel where
  cid : Nat
  alive : Bool
deriving DecidableEq, Repr

/-- `ConnectionManager.active_connections`: job id → list of subscribed
channels, embedded as an association list with at most one entry per id. -/
abbrev Connections := List (String × List Channel)

/-- Dict lookup on the connection registry. -/
def lookupConns : Connections → String → Option (List Channel)
  | [], _ => none
  | e :: rest, jobId =>
      if e.1 = jobId then some e.2 else lookupConns rest jobId

/-- Replace the channel list stored under `jobId`. -/
def setConns : Connections → String → List Channel → Connections
  | [], _, _ => []
  | e :: rest, jobId, chans =>
      if e.1 = jobId then (jobId, chans) :: setConns rest jobId chans
      else e :: setConns rest jobId chans

/-- `del self.active_connections[job_id]`. -/
def removeConns : Connections → String → Connections
  | [], _ => []
  | e :: rest, jobId =>
      if e.1 = jobId then removeConns rest jobId
      else e :: removeConns rest jobId

/-- The JSON message envelope sent over a channel
(`websocket.py` docstring: type, job_id, progress, stage, message,
result_url, stats, error; absent keys are `none`). -/
structure WsMessage (Val : Type) where
  type : String
  jobId : String
  progress : Option Int
  stage : Option String
  message : Option String
  resultUrl : Option String
  stats : Option (Stats Val)
  error : Option String
deriving DecidableEq, Repr

/-- One broadcast call: the message sent, the channels the send was attempted
on (in iteration order) and those on which it succeeded. -/
structure BroadcastEvent (Val : Type) where
  message : WsMessage Val
  attempted : List Nat
  delivered : List Nat
deriving DecidableEq, Repr

/-- `ConnectionManager.broadcast_progress`: builds the progress message
(`stage` and `message` keys only when truthy), returns early when the job id
has no entry; otherwise sends to every channel, collects the channels whose
send raised, removes each of them (`list.remove`) from the entry, and deletes
the entry when it becomes empty. -/
def broadcast_progress {Val : Type} (conns : Connections) (jobId : String)
    (progress : Int) (stage : Option String) (message : Option String) :
    Connections × BroadcastEvent Val :=
  let data : WsMessage Val :=
    { type := "progress"
      jobId := jobId
      progress := some progress
      stage := stage.bind (fun s => if s = "" then none else some s)
      message := message.bind (fun s => if s = "" then none else some s)
      resultUrl := none
      stats := none
      error := none }
  match lookupConns conns jobId with
  | none => (conns, { message := data, attempted := [], delivered := [] })
  | some chans =>
      let disconnected := chans.filter (fun c => !c.alive)
      let remaining := disconnected.foldl (fun acc c => acc.erase c) chans
      let conns' :=
        if remaining.isEmpty then removeConns conns jobId
        else setConns conns jobId remaining
      (conns',
        { message := data
          attempted := chans.map (fun c => c.cid)
          delivered := (chans.filter (fun c => c.alive)).map (fun c => c.cid) })

/-- `ConnectionManager.broadcast_complete`: builds the completion message
(`stats` key only when truthy), sends to a snapshot of the channel list and
ignores send failures — failed channels are NOT removed. -/
def broadcast_complete {Val : Type} (conns : Connections) (jobId : String)
    (resultUrl : String) (stats : Option (Stats Val)) :
    Connections × BroadcastEvent Val :=
  let data : WsMessage Val :=
    { type := "complete"
      jobId := jobId
      progress := some 100
      stage := none
      message := none
      resultUrl := some resultUrl
      stats := stats.bind (fun s => if s.isEmpty then none else some s)
      error := none }
  match lookupConns conns jobId with
  | none => (conns, { message := data, attempted := [], delivered := [] })
  | some chans =>
      (conns,
        { message := data
          attempted := chans.map (fun c => c.cid)
          delivered := (chans.filter (fun c => c.alive)).map (fun c => c.cid) })

/-- `ConnectionManager.broadcast_error`: builds the error message, sends to a
snapshot of the channel list and ignores send failures — failed channels are
NOT removed. -/
def broadcast_error {Val : Type} (conns : Connections) (jobId : String)
    (error : String) : Connections × BroadcastEvent Val :=
  let data : WsMessage Val :=
    { type := "error"
      jobId := jobId
      progress := none
      stage := none
      message := none
      resultUrl := none
      stats := none
      error := some error }
  match lookupConns conns jobId with
  | none => (conns, { message := data, attempted := [], delivered := [] })
  | some chans =>
      (conns,
        { message := data
          attempted := chans.map (fun c => c.cid)
          delivered := (chans.filter (fun c => c.alive)).map (fun c => c.cid) })

/-- The outcome of `asyncio.to_thread(self.processor.process_sync, ...)`:
either a `ProcessingResult` (svg content, statistics, device) or an exception
carrying `str(e)`. -/
inductive PipelineOutcome (Val : Type) where
  | success (svgContent : String) (stats : Stats Val) (deviceUsed : String)
  | failure (message : String)
deriving DecidableEq, Repr

/-- An HTTP error response (`HTTPException(status_code, detail)`). -/
structure HttpError where
  code : Nat
  detail : String
deriving DecidableEq, Repr

/-- Everything observable about one `JobService.process_job` call: final
store and connection registry, the broadcasts issued in order, the
successive stores after each storage write, and the response. -/
structure RunOutcome (Val : Type) where
  store : Store Val
  conns : Connections
  events : List (BroadcastEvent Val)
  stores : List (Store Val)
  response : Except HttpError Unit

/-- `JobService.process_job` (lines 138–227 of `services/job_service.py`):
looks up the job (404 when absent), rejects with a 400 conflict when the
status is not PENDING, otherwise writes PROCESSING, broadcasts progress 10
and 20, runs the pipeline, and on success writes the result record and
broadcasts completion, while on an exception writes FAILED with the captured
message and broadcasts the error, re-raising as a 500. -/
def process_job {Val : Type} (resultsDir : String) (st : Store Val)
    (conns : Connections) (jobId : String) (outcome : PipelineOutcome Val) :
    RunOutcome Val :=
  match st jobId with
  | none =>
      { store := st, conns := conns, events := [], stores := []
        response := .error { code := 404, detail := "Job not found" } }
  | some job =>
      if job.status ≠ ProcessingStatus.pending then
        { store := st, conns := conns, events := [], stores := []
          response := .error { code := 400, detail := "Job already " ++ job.status.value } }
      else
        let st1 := (set_status st jobId ProcessingStatus.processing none).1
        let b1 := @broadcast_progress Val conns jobId 10
          (some "preprocessing") (some "Loading image")
        let b2 := @broadcast_progress Val b1.1 jobId 20
          (some "line_extraction") (some "Extracting lines")
        match outcome with
        | .failure m =>
            let st2 := (set_status st1 jobId ProcessingStatus.failed (some m)).1
            let b3 := @broadcast_error Val b2.1 jobId m
            { store := st2, conns := b3.1, events := [b1.2, b2.2, b3.2]
              stores := [st1, st2]
              response := .error { code := 500, detail := "Processing failed: " ++ m } }
        | .success _svg stats device =>
            let b3 := @broadcast_progress Val b2.1 jobId 80
              (some "export") (some "Generating SVG")
            let outputPath := resultsDir ++ "/" ++ jobId ++ ".svg"
            let st2 := (set_result st1 jobId outputPath (some stats) (some device)).1
            let b4 := broadcast_complete b3.1 jobId ("/api/download/" ++ jobId)
              (some stats)
            { store := st2, conns := b4.1, events := [b1.2, b2.2, b3.2, b4.2]
              stores := [st1, st2]
              response := .ok () }

/-- The storage-mutating operations exposed by `JobService`:
`create_job_from_upload` (which always creates with PENDING status),
`process_job` (parameterised by the pipeline outcome) and `delete_job`. -/
inductive ServiceOp (Val : Type) where
  | create (jobId filename inputPath : String)
  | process (jobId : String) (outcome : PipelineOutcome Val)
  | delete (jobId : String)

/-- The successive stores produced by the storage writes of one service
operation (a rejected `process_job` writes nothing). -/
def opStores {Val : Type} (resultsDir : String) (st : Store Val) :
    ServiceOp Val → List (Store Val)
  | .create jobId filename inputPath =>
      [create_job st jobId filename inputPath ProcessingStatus.pending]
  | .process jobId outcome => (process_job resultsDir st [] jobId outcome).stores
  | .delete jobId => [(delete_job st jobId).1]

/-- The store after a service operation finishes. -/
def finalStore {Val : Type} (resultsDir : String) (st : Store Val)
    (op : ServiceOp Val) : Store Val :=
  (opStores resultsDir st op).getLastD st

/-- The trace of stores after each storage write along a sequence of service
operations. -/
def runOps {Val : Type} (resultsDir : String) :
    Store Val → List (ServiceOp Val) → List (Store Val)
  | _, [] => []
  | st, op :: ops =>
      opStores resultsDir st op ++ runOps resultsDir (finalStore resultsDir st op) ops

/-- Validity of an operation sequence: every `create` targets an id not
currently in the store (`JobService` generates a fresh `uuid4` per upload). -/
def ValidOps {Val : Type} (resultsDir : String) :
    Store Val → List (ServiceOp Val) → Prop
  | _, [] => True
  | st, op :: ops =>
      (match op with
       | .create jobId _ _ => st jobId = none
       | _ => True) ∧
      ValidOps resultsDir (finalStore resultsDir st op) ops

/-- Every pipeline failure in the sequence carries a non-empty message
(`str(e)` of the raised exception). -/
def NonemptyFailures {Val : Type} (ops : List (ServiceOp Val)) : Prop :=
  ∀ op ∈ ops,
    match op with
    | ServiceOp.process _ (PipelineOutcome.failure m) => m ≠ ""
    | _ => True

/-- The stored status of a job id, when the job exists. -/
def statusOf {Val : Type} (st : Store Val) (jobId : String) :
    Option ProcessingStatus :=
  (st jobId).map (fun j => j.status)

/-- The status transitions a single storage write may cause for a fixed job
id: no change, creation as PENDING, PENDING → PROCESSING,
PROCESSING → COMPLETED, PROCESSING → FAILED, or removal of the record by an
explicit delete.  No edge leaves COMPLETED or FAILED towards another
status. -/
def statusStep : Option ProcessingStatus → Option ProcessingStatus → Prop
  | a, b =>
      a = b ∨
      (a = none ∧ b = some ProcessingStatus.pending) ∨
      (a = some ProcessingStatus.pending ∧ b = some ProcessingStatus.processing) ∨
      (a = some ProcessingStatus.processing ∧ b = some ProcessingStatus.completed) ∨
      (a = some ProcessingStatus.processing ∧ b = some ProcessingStatus.failed) ∨
      b = none

/-- The job-record invariant of the data model: output location present iff
COMPLETED, error present iff FAILED. -/
def StoreInv {Val : Type} (st : Store Val) : Prop :=
  ∀ jobId job, st jobId = some job →
    (job.outputPath ≠ none ↔ job.status = ProcessingStatus.completed) ∧
    (job.error ≠ none ↔ job.status = ProcessingStatus.failed)

theorem update_job_missing {Val : Type} (st : Store Val) (jobId : String)
    (u : JobUpdates Val) (h : st jobId = none) :
    update_job st jobId u = (st, false) := by
  simp [update_job, h]

theorem update_job_found {Val : Type} (st : Store Val) (jobId : String)
    (u : JobUpdates Val) (job : JobRecord Val) (h : st jobId = some job) :
    update_job st jobId u =
      (fun k => if k = jobId then some (job.applyUpdates u) else st k, true) := by
  simp [update_job, h]

/-- C10: `update_job` on a known id merges exactly the keys present in the
updates dict into the stored record and returns true, leaving every field
not named in the updates at its previous value and every other stored record
untouched; on an unknown id it returns false and the store is unchanged. -/
theorem c10_update_job_merges {Val : Type} (st : Store Val) (jobId : String)
    (u : JobUpdates Val) :
    (st jobId = none → update_job st jobId u = (st, false)) ∧
    (∀ job, st jobId = some job →
      (update_job st jobId u).2 = true ∧
      (update_job st jobId u).1 jobId = some (job.applyUpdates u) ∧
      (∀ k, k ≠ jobId → (update_job st jobId u).1 k = st k) ∧
      (u.jobId = none → (job.applyUpdates u).jobId = job.jobId) ∧
      (∀ v, u.jobId = some v → (job.applyUpdates u).jobId = v) ∧
      (u.filename = none → (job.applyUpdates u).filename = job.filename) ∧
      (∀ v, u.filename = some v → (job.applyUpdates u).filename = v) ∧
      (u.inputPath = none → (job.applyUpdates u).inputPath = job.inputPath) ∧
      (∀ v, u.inputPath = some v → (job.applyUpdates u).inputPath = v) ∧
      (u.outputPath = none → (job.applyUpdates u).outputPath = job.outputPath) ∧
      (∀ v, u.outputPath = some v → (job.applyUpdates u).outputPath = v) ∧
      (u.status = none → (job.applyUpdates u).status = job.status) ∧
      (∀ v, u.status = some v → (job.applyUpdates u).status = v) ∧
      (u.error = none → (job.applyUpdates u).error = job.error) ∧
      (∀ v, u.error = some v → (job.applyUpdates u).error = v) ∧
      (u.stats = none → (job.applyUpdates u).stats = job.stats) ∧
      (∀ v, u.stats = some v → (job.applyUpdates u).stats = v) ∧
      (u.deviceUsed = none → (job.applyUpdates u).deviceUsed = job.deviceUsed) ∧
      (∀ v, u.deviceUsed = some v → (job.applyUpdates u).deviceUsed = v)) := by
  refine ⟨fun h => update_job_missing st jobId u h, fun job h => ?_⟩
  rw [update_job_found st jobId u job h]
  refine ⟨rfl, by simp, fun k hk => by simp [hk], ?_⟩
  repeat' constructor
  all_goals
    first
      | (intro hu; simp [JobRecord.applyUpdates, hu])
      | (intro v hu; simp [JobRecord.applyUpdates, hu])

/-- Witness for C10 at a concrete store and updates dict. -/
theorem c10_witness :
    ((@update_job Int
        (create_job emptyStore "j" "f.jpg" "/up/j.jpg" ProcessingStatus.pending)
        "j"
        { JobUpdates.empty with
            status := some ProcessingStatus.failed
            error := some (some "boom") }).2 = true) ∧
    ((@update_job Int
        (create_job emptyStore "j" "f.jpg" "/up/j.jpg" ProcessingStatus.pending)
        "j"
        { JobUpdates.empty with
            status := some ProcessingStatus.failed
            error := some (some "boom") }).1 "j" =
      some { jobId := "j", filename := "f.jpg", inputPath := "/up/j.jpg"
             outputPath := none, status := ProcessingStatus.failed
             error := some "boom", stats := none, deviceUsed := none }) := by
  have h := (@c10_update_job_merges Int
    (create_job emptyStore "j" "f.jpg" "/up/j.jpg" ProcessingStatus.pending) "j"
    { JobUpdates.empty with
        status := some ProcessingStatus.failed
        error := some (some "boom") }).2
    { jobId := "j", filename := "f.jpg", inputPath := "/up/j.jpg"
      outputPath := none, status := ProcessingStatus.pending, error := none
      stats := none, deviceUsed := none } (by decide)
  exact ⟨h.1, by rw [h.2.1]; decide⟩

/-- C8 amended: the repository backends honour the create contract — create
fails when the id already exists and stores the record on a fresh id — while
`JobStorage.create_job` never fails and silently replaces any existing
record. -/
theorem c8_create_contract {Val : Type} (st : Store Val) (job : JobRecord Val)
    (jobId filename inputPath : String) (status : ProcessingStatus) :
    (∀ j0, st job.jobId = some j0 →
        InMemoryJobRepository.create st job =
          .error ("Job " ++ job.jobId ++ " already exists")) ∧
    (st job.jobId = none →
        ∃ st', InMemoryJobRepository.create st job = .ok st' ∧
          st' job.jobId = some job ∧ ∀ k, k ≠ job.jobId → st' k = st k) ∧
    (∀ j0, st (RedisJobRepository.getKey job.jobId) = some j0 →
        RedisJobRepository.create st job =
          .error ("Job " ++ job.jobId ++ " already exists")) ∧
    (st (RedisJobRepository.getKey job.jobId) = none →
        ∃ st', RedisJobRepository.create st job = .ok st' ∧
          st' (RedisJobRepository.getKey job.jobId) = some job ∧
          ∀ k, k ≠ RedisJobRepository.getKey job.jobId → st' k = st k) ∧
    ((create_job st jobId filename inputPath status) jobId =
        some { jobId := jobId, filename := filename, inputPath := inputPath
               outputPath := none, status := status, error := none
               stats := none, deviceUsed := none } ∧
      ∀ k, k ≠ jobId → (create_job st jobId filename inputPath status) k = st k) := by
  refine ⟨fun j0 h => by simp [InMemoryJobRepository.create, h], ?_,
    fun j0 h => by simp [RedisJobRepository.create, h], ?_,
    by simp [create_job], fun k hk => by simp [create_job, hk]⟩
  · intro h
    refine ⟨fun k => if k = job.jobId then some job else st k, ?_, by simp,
      fun k hk => by simp [hk]⟩
    simp [InMemoryJobRepository.create, h]
  · intro h
    refine ⟨fun k => if k = RedisJobRepository.getKey job.jobId then some job
        else st k, ?_, by simp, fun k hk => by simp [hk]⟩
    simp [RedisJobRepository.create, h]

/-- Witness for C8 at concrete stores. -/
theorem c8_witness :
    (@InMemoryJobRepository.create Int
      (create_job emptyStore "j" "f.jpg" "/up/j.jpg" ProcessingStatus.pending)
      { jobId := "j", filename := "g.png", inputPath := "/up/g"
        outputPath := none, status := ProcessingStatus.pending, error := none
        stats := none, deviceUsed := none } =
      .error "Job j already exists") := by
  have h := (@c8_create_contract Int
    (create_job emptyStore "j" "f.jpg" "/up/j.jpg" ProcessingStatus.pending)
    { jobId := "j", filename := "g.png", inputPath := "/up/g"
      outputPath := none, status := ProcessingStatus.pending, error := none
      stats := none, deviceUsed := none } "j" "f.jpg" "/up/j.jpg"
    ProcessingStatus.pending).1
    { jobId := "j", filename := "f.jpg", inputPath := "/up/j.jpg"
      outputPath := none, status := ProcessingStatus.pending, error := none
      stats := none, deviceUsed := none } (by decide)
  exact h

/-- C8 counterexample: `JobStorage.create_job` on an id that already exists
does not fail — it silently replaces the stored record with the fresh one. -/
theorem c8_counterexample :
    (@create_job Int
        (create_job emptyStore "j" "old.jpg" "/up/old" ProcessingStatus.completed)
        "j" "new.png" "/up/new" ProcessingStatus.pending) "j" =
      some { jobId := "j", filename := "new.png", inputPath := "/up/new"
             outputPath := none, status := ProcessingStatus.pending, error := none
             stats := none, deviceUsed := none } ∧
    (@create_job Int emptyStore "j" "old.jpg" "/up/old"
        ProcessingStatus.completed) "j" =
      some { jobId := "j", filename := "old.jpg", inputPath := "/up/old"
             outputPath := none, status := ProcessingStatus.completed, error := none
             stats := none, deviceUsed := none } := by
  constructor <;> decide

/-- C2: a start-processing request on a job whose stored status is not
PENDING is rejected with the 400 conflict response and changes nothing (the
store, the registry, the broadcasts, the writes are all untouched); on a
PENDING job the request is accepted and its first storage write sets the
status to PROCESSING, leaving every other field and every other record
unchanged. -/
theorem c2_start_processing_guard {Val : Type} (resultsDir : String)
    (st : Store Val) (conns : Connections) (jobId : String)
    (outcome : PipelineOutcome Val) (job : JobRecord Val)
    (hjob : st jobId = some job) :
    (job.status ≠ ProcessingStatus.pending →
      process_job resultsDir st conns jobId outcome =
        { store := st, conns := conns, events := [], stores := []
          response := .error { code := 400
                               detail := "Job already " ++ job.status.value } }) ∧
    (job.status = ProcessingStatus.pending →
      ∃ st1, (process_job resultsDir st conns jobId outcome).stores.head? = some st1 ∧
        st1 jobId = some { jobId := job.jobId, filename := job.filename
                           inputPath := job.inputPath, outputPath := job.outputPath
                           status := ProcessingStatus.processing, error := job.error
                           stats := job.stats, deviceUsed := job.deviceUsed } ∧
        ∀ k, k ≠ jobId → st1 k = st k) := by
  constructor
  · intro hne
    simp [process_job, hjob, hne]
  · intro hpe
    refine ⟨(set_status st jobId ProcessingStatus.processing none).1, ?_, ?_, ?_⟩
    · cases outcome <;> simp [process_job, hjob, hpe]
    · rw [set_status, update_job_found st jobId _ job hjob]
      simp [JobRecord.applyUpdates, JobUpdates.empty]
    · intro k hk
      rw [set_status, update_job_found st jobId _ job hjob]
      simp [hk]

/-- Witness for C2: a COMPLETED job is rejected untouched, a PENDING job has
its first write set PROCESSING. -/
theorem c2_witness :
    (@process_job Int "/results"
        (create_job emptyStore "j" "f.jpg" "/up/j.jpg" ProcessingStatus.completed)
        [] "j" (PipelineOutcome.failure "x") =
      { store := create_job emptyStore "j" "f.jpg" "/up/j.jpg"
          ProcessingStatus.completed
        conns := [], events := [], stores := []
        response := .error { code := 400
                             detail := "Job already " ++
                               ProcessingStatus.completed.value } }) ∧
    (∃ st1, (@process_job Int "/results"
        (create_job emptyStore "j" "f.jpg" "/up/j.jpg" ProcessingStatus.pending)
        [] "j" (PipelineOutcome.failure "x")).stores.head? = some st1 ∧
      st1 "j" = some { jobId := "j", filename := "f.jpg", inputPath := "/up/j.jpg"
                       outputPath := none, status := ProcessingStatus.processing
                       error := none, stats := none, deviceUsed := none } ∧
      ∀ k, k ≠ "j" → st1 k =
        (@create_job Int emptyStore "j" "f.jpg" "/up/j.jpg"
          ProcessingStatus.pending) k) := by
  constructor
  · exact (c2_start_processing_guard "/results"
      (create_job emptyStore "j" "f.jpg" "/up/j.jpg" ProcessingStatus.completed)
      [] "j" (PipelineOutcome.failure "x")
      { jobId := "j", filename := "f.jpg", inputPath := "/up/j.jpg"
        outputPath := none, status := ProcessingStatus.completed, error := none
        stats := none, deviceUsed := none } (by decide)).1 (by decide)
  · exact (c2_start_processing_guard "/results"
      (create_job emptyStore "j" "f.jpg" "/up/j.jpg" ProcessingStatus.pending)
      [] "j" (PipelineOutcome.failure "x")
      { jobId := "j", filename := "f.jpg", inputPath := "/up/j.jpg"
        outputPath := none, status := ProcessingStatus.pending, error := none
        stats := none, deviceUsed := none } (by decide)).2 (by decide)

theorem tryPreferences_of_find {providers : List Provider} :
    ∀ (prefs : List String) (pref : String),
      prefs.find? (prefAvailable providers) = some pref →
      ∃ p, providers.find? (fun q => q.name == pref) = some p ∧
        p.available = true ∧ tryPreferences providers prefs = some p
  | [], pref => by simp
  | pref0 :: rest, pref => by
      intro hfind
      by_cases h0 : prefAvailable providers pref0 = true
      · rw [List.find?_cons_of_pos _ h0] at hfind
        cases hfind
        unfold prefAvailable at h0
        revert h0
        cases hp : providers.find? (fun q => q.name == pref0) with
        | none => simp
        | some p =>
            intro h0
            have hav : p.available = true := h0
            exact ⟨p, rfl, hav, by simp [tryPreferences, hp, hav]⟩
      · rw [List.find?_cons_of_neg _ h0] at hfind
        obtain ⟨p, hp, hav, htry⟩ := tryPreferences_of_find rest pref hfind
        refine ⟨p, hp, hav, ?_⟩
        unfold prefAvailable at h0
        revert h0
        cases hp0 : providers.find? (fun q => q.name == pref0) with
        | none => intro _; simp [tryPreferences, hp0, htry]
        | some q =>
            intro h0
            simp only [Bool.not_eq_true] at h0
            simp [tryPreferences, hp0, h0, htry]

theorem tryPreferences_none {providers : List Provider} :
    ∀ (prefs : List String), (∀ pref ∈ prefs, prefAvailable providers pref = false) →
      tryPreferences providers prefs = none
  | [], _ => rfl
  | pref0 :: rest, h => by
      have h0 := h pref0 (by simp)
      have hrest := tryPreferences_none rest (fun q hq => h q (by simp [hq]))
      unfold prefAvailable at h0
      revert h0
      cases hp0 : providers.find? (fun q => q.name == pref0) with
      | none => intro _; simp [tryPreferences, hp0, hrest]
      | some q =>
          intro h0
          have hq : q.available = false := h0
          simp [tryPreferences, hp0, hq, hrest]

/-- C3: `select_provider` returns the provider named by the first preference
whose lookup hits an available provider; when no preference hits (or
preferences are absent), it returns the first available provider in
discovery order; and when no provider is available it fails with the
no-available-providers error regardless of preferences. -/
theorem c3_select_provider_spec (extName : String) (providers : List Provider)
    (prefs : List String) :
    (∀ pref, prefs.find? (prefAvailable providers) = some pref →
      ∃ p, providers.find? (fun q => q.name == pref) = some p ∧
        p.available = true ∧
        select_provider extName providers (some prefs) = .ok p) ∧
    (prefs.find? (prefAvailable providers) = none →
      select_provider extName providers (some prefs) =
        select_provider extName providers none) ∧
    (∀ p, providers.find? (fun q => q.available) = some p →
      select_provider extName providers none = .ok p) ∧
    ((∀ p ∈ providers, p.available = false) →
      ∀ preferences, select_provider extName providers preferences =
        .error ("No available providers for extension " ++ extName)) := by
  have hnoav : (∀ p ∈ providers, p.available = false) →
      ∀ prefs2, tryPreferences providers prefs2 = none := by
    intro hall prefs2
    apply tryPreferences_none
    intro pref _
    unfold prefAvailable
    cases hp : providers.find? (fun q => q.name == pref) with
    | none => rfl
    | some q => exact hall q (List.mem_of_find?_eq_some hp)
  refine ⟨?_, ?_, ?_, ?_⟩
  · intro pref hfind
    obtain ⟨p, hp, hav, htry⟩ := tryPreferences_of_find prefs pref hfind
    refine ⟨p, hp, hav, ?_⟩
    have hne : prefs ≠ [] := by
      intro h; subst h; simp at hfind
    simp [select_provider, hne, htry]
  · intro hfind
    by_cases hne : prefs.isEmpty
    · simp [select_provider, hne]
    · have hmiss : ∀ pref ∈ prefs, prefAvailable providers pref = false := by
        intro pref hmem
        have := List.find?_eq_none.mp hfind pref hmem
        simpa using this
      simp [select_provider, hne, tryPreferences_none prefs hmiss]
  · intro p hp
    simp [select_provider, hp]
  · intro hall preferences
    have hfb : providers.find? (fun q => q.available) = none := by
      apply List.find?_eq_none.mpr
      intro p hmem
      simp [hall p hmem]
    cases preferences with
    | none => simp [select_provider, hfb]
    | some prefs2 =>
        by_cases hne : prefs2.isEmpty <;>
          simp [select_provider, hne, hfb, hnoav hall prefs2]

/-- Witness for C3: the spec example — preferences `["b","a"]` with only `a`
available selects `a`, and an empty provider set fails. -/
theorem c3_witness :
    select_provider "line_extraction" [{ name := "a", available := true }]
      (some ["b", "a"]) = .ok { name := "a", available := true } ∧
    select_provider "line_extraction" [] none =
      .error "No available providers for extension line_extraction" := by
  constructor
  · obtain ⟨p, hp, _, hsel⟩ :=
      (c3_select_provider_spec "line_extraction"
        [{ name := "a", available := true }] ["b", "a"]).1 "a" (by decide)
    have h2 : List.find? (fun (q : Provider) => q.name == "a")
        [{ name := "a", available := true }] =
        some { name := "a", available := true } := by decide
    rw [h2] at hp
    rw [hsel, (Option.some.inj hp).symm]
  · have h := (c3_select_provider_spec "line_extraction" [] []).2.2.2
      (by intro p hp; cases hp) none
    simpa using h

theorem filter_orderedInsert {α : Type} (p : Int) (x : Int × α) :
    ∀ l : List (Int × α),
      (List.orderedInsert (fun a b => a.1 ≤ b.1) x l).filter (fun y => y.1 == p) =
        if x.1 == p then x :: l.filter (fun y => y.1 == p)
        else l.filter (fun y => y.1 == p)
  | [] => by
      cases hxp : x.1 == p <;> simp [List.filter_cons, hxp]
  | y :: ys => by
      by_cases hle : x.1 ≤ y.1
      · simp only [List.orderedInsert, if_pos hle]
        cases hxp : x.1 == p <;> simp [List.filter_cons, hxp]
      · have hlt : y.1 < x.1 := lt_of_not_le hle
        simp only [List.orderedInsert, if_neg hle]
        rw [List.filter_cons, List.filter_cons, filter_orderedInsert p x ys]
        cases hxp : x.1 == p with
        | true =>
            have hxpe : x.1 = p := by simpa using hxp
            have hyp : (y.1 == p) = false := by
              simp only [beq_eq_false_iff_ne, ne_eq]
              intro hc
              rw [hc, ← hxpe] at hlt
              exact lt_irrefl _ hlt
            simp [hyp, hxp]
        | false => simp [hxp]

theorem sortHooks_filter {α : Type} (p : Int) :
    ∀ hooks : List (Int × α),
      (sortHooks hooks).filter (fun y => y.1 == p) =
        hooks.filter (fun y => y.1 == p)
  | [] => rfl
  | x :: l => by
      unfold sortHooks
      simp only [List.insertionSort]
      rw [filter_orderedInsert]
      have ih := sortHooks_filter p l
      unfold sortHooks at ih
      cases hxp : x.1 == p <;> simp [List.filter_cons, hxp, ih]

/-- C7: `execute_hooks` runs the handlers registered under a `(stage,
timing)` key in ascending priority order (the executed sequence is the
priority-sorted registration list), with ties broken by registration order
(for every priority, the subsequence at that priority equals the
registration-order list at that priority); in particular handlers registered
at priorities 50, 10, 90 in that order execute in the order 10, 50, 90. -/
theorem c7_hooks_priority_order {α : Type} (m : HooksMap α)
    (stage timing : String) :
    List.Pairwise (fun a b => a.1 ≤ b.1) (sortHooks (m (stage, timing))) ∧
    (∀ p : Int, (sortHooks (m (stage, timing))).filter (fun y => y.1 == p) =
      (m (stage, timing)).filter (fun y => y.1 == p)) ∧
    execute_hooks m stage timing =
      (sortHooks (m (stage, timing))).map (fun x => x.2) ∧
    execute_hooks
      (hookRegister
        (hookRegister (hookRegister emptyHooks "vectorize" "before" 50 "h50")
          "vectorize" "before" 10 "h10")
        "vectorize" "before" 90 "h90")
      "vectorize" "before" = ["h10", "h50", "h90"] :=
  ⟨List.sorted_insertionSort _ _, fun p => sortHooks_filter p _, rfl, by decide⟩

theorem foldl_erase_cons (x : Channel) :
    ∀ (ds xs : List Channel), (∀ d ∈ ds, d ≠ x) →
      ds.foldl (fun acc c => acc.erase c) (x :: xs) =
        x :: ds.foldl (fun acc c => acc.erase c) xs
  | [], _, _ => rfl
  | d :: ds, xs, h => by
      have hdx : (x == d) = false := by
        simp only [beq_eq_false_iff_ne, ne_eq]
        intro hc
        exact h d (by simp) hc.symm
      simp only [List.foldl_cons]
      rw [List.erase_cons_tail, foldl_erase_cons x ds (xs.erase d)
        (fun q hq => h q (by simp [hq]))]
      simp [hdx]

theorem erase_disconnected :
    ∀ chans : List Channel,
      (chans.filter (fun c => !c.alive)).foldl (fun acc c => acc.erase c) chans =
        chans.filter (fun c => c.alive)
  | [] => rfl
  | x :: xs => by
      cases hx : x.alive with
      | false =>
          have hfilter : (x :: xs).filter (fun c => !c.alive) =
              x :: xs.filter (fun c => !c.alive) := by
            simp [List.filter_cons, hx]
          rw [hfilter]
          simp only [List.foldl_cons]
          rw [List.erase_cons_head]
          rw [erase_disconnected xs]
          simp [List.filter_cons, hx]
      | true =>
          have hfilter : (x :: xs).filter (fun c => !c.alive) =
              xs.filter (fun c => !c.alive) := by
            simp [List.filter_cons, hx]
          rw [hfilter]
          rw [foldl_erase_cons x (xs.filter (fun c => !c.alive)) xs]
          · rw [erase_disconnected xs]
            simp [List.filter_cons, hx]
          · intro d hd hdc
            have := List.of_mem_filter hd
            rw [hdc, hx] at this
            simp at this

theorem lookupConns_setConns_self :
    ∀ (conns : Connections) (jobId : String) (chans : List Channel),
      (lookupConns conns jobId).isSome →
      lookupConns (setConns conns jobId chans) jobId = some chans
  | [], jobId, chans => by simp [lookupConns]
  | e :: rest, jobId, chans => by
      intro h
      by_cases he : e.1 = jobId
      · simp [lookupConns, setConns, he]
      · have h2 : (lookupConns rest jobId).isSome := by
          simpa [lookupConns, he] using h
        simpa [lookupConns, setConns, he]
          using lookupConns_setConns_self rest jobId chans h2

theorem lookupConns_setConns_other :
    ∀ (conns : Connections) (jobId : String) (chans : List Channel) (j : String),
      j ≠ jobId →
      lookupConns (setConns conns jobId chans) j = lookupConns conns j
  | [], _, _, _, _ => rfl
  | e :: rest, jobId, chans, j, hj => by
      have hij : ¬ (jobId = j) := fun hc => hj hc.symm
      by_cases he : e.1 = jobId
      · have hej : ¬ (e.1 = j) := by rw [he]; exact hij
        simp only [setConns, if_pos he, lookupConns, if_neg hij, if_neg hej]
        exact lookupConns_setConns_other rest jobId chans j hj
      · by_cases hej : e.1 = j
        · simp only [setConns, if_neg he, lookupConns, if_pos hej]
        · simp only [setConns, if_neg he, lookupConns, if_neg hej]
          exact lookupConns_setConns_other rest jobId chans j hj

theorem lookupConns_removeConns_self (conns : Connections) (jobId : String) :
    lookupConns (removeConns conns jobId) jobId = none := by
  induction conns with
  | nil => rfl
  | cons e rest ih =>
      by_cases he : e.1 = jobId
      · simpa [removeConns, he] using ih
      · simpa [removeConns, he, lookupConns] using ih

theorem lookupConns_removeConns_other (conns : Connections) (jobId j : String)
    (hj : j ≠ jobId) :
    lookupConns (removeConns conns jobId) j = lookupConns conns j := by
  induction conns with
  | nil => rfl
  | cons e rest ih =>
      have hij : ¬ (jobId = j) := fun hc => hj hc.symm
      by_cases he : e.1 = jobId
      · have hej : ¬ (e.1 = j) := by rw [he]; exact hij
        simp only [removeConns, if_pos he, lookupConns, if_neg hej]
        exact ih
      · by_cases hej : e.1 = j
        · simp only [removeConns, if_neg he, lookupConns, if_pos hej]
        · simp only [removeConns, if_neg he, lookupConns, if_neg hej]
          exact ih

/-- C6 amended: every broadcast sends to each channel subscribed to the job
id (a failed send never prevents delivery to the remaining channels), but
only `broadcast_progress` removes the channels whose send failed — and drops
the job id entry when none survive — while `broadcast_complete` and
`broadcast_error` leave the subscription registry entirely unchanged. -/
theorem c6_broadcast_delivery {Val : Type} (conns : Connections)
    (jobId : String) (chans : List Channel) (progress : Int)
    (stage message : Option String) (resultUrl errorMsg : String)
    (stats : Option (Stats Val))
    (h : lookupConns conns jobId = some chans) :
    ((@broadcast_progress Val conns jobId progress stage message).2.attempted =
        chans.map (fun c => c.cid)) ∧
    ((@broadcast_progress Val conns jobId progress stage message).2.delivered =
        (chans.filter (fun c => c.alive)).map (fun c => c.cid)) ∧
    (lookupConns
        (@broadcast_progress Val conns jobId progress stage message).1 jobId =
      if (chans.filter (fun c => c.alive)).isEmpty then none
      else some (chans.filter (fun c => c.alive))) ∧
    (∀ j, j ≠ jobId →
      lookupConns
        (@broadcast_progress Val conns jobId progress stage message).1 j =
      lookupConns conns j) ∧
    ((@broadcast_complete Val conns jobId resultUrl stats).1 = conns) ∧
    ((@broadcast_complete Val conns jobId resultUrl stats).2.attempted =
        chans.map (fun c => c.cid)) ∧
    ((@broadcast_complete Val conns jobId resultUrl stats).2.delivered =
        (chans.filter (fun c => c.alive)).map (fun c => c.cid)) ∧
    ((@broadcast_error Val conns jobId errorMsg).1 = conns) ∧
    ((@broadcast_error Val conns jobId errorMsg).2.attempted =
        chans.map (fun c => c.cid)) ∧
    ((@broadcast_error Val conns jobId errorMsg).2.delivered =
        (chans.filter (fun c => c.alive)).map (fun c => c.cid)) := by
  have hrem : (chans.filter (fun c => !c.alive)).foldl
      (fun acc c => acc.erase c) chans = chans.filter (fun c => c.alive) :=
    erase_disconnected chans
  refine ⟨by simp [broadcast_progress, h],
    by simp [broadcast_progress, h], ?_, ?_,
    by simp [broadcast_complete, h],
    by simp [broadcast_complete, h],
    by simp [broadcast_complete, h],
    by simp [broadcast_error, h],
    by simp [broadcast_error, h],
    by simp [broadcast_error, h]⟩
  · simp only [broadcast_progress, h, hrem]
    by_cases hemp : (chans.filter (fun c => c.alive)).isEmpty
    · simp [hemp, lookupConns_removeConns_self]
    · have hsome : (lookupConns conns jobId).isSome := by simp [h]
      simp [hemp, lookupConns_setConns_self conns jobId _ hsome]
  · intro j hj
    simp only [broadcast_progress, h, hrem]
    by_cases hemp : (chans.filter (fun c => c.alive)).isEmpty
    · simp [hemp, lookupConns_removeConns_other conns jobId j hj]
    · simp [hemp, lookupConns_setConns_other conns jobId _ j hj]

/-- Witness for C6 at a registry with one dead and one live channel for job
`j` plus an unrelated job `k`. -/
theorem c6_witness :
    ((@broadcast_progress Int
        [("j", [{ cid := 1, alive := false }, { cid := 2, alive := true }]),
         ("k", [{ cid := 3, alive := true }])] "j" 10 none none).2.attempted =
      [1, 2]) ∧
    ((@broadcast_progress Int
        [("j", [{ cid := 1, alive := false }, { cid := 2, alive := true }]),
         ("k", [{ cid := 3, alive := true }])] "j" 10 none none).2.delivered =
      [2]) ∧
    (lookupConns (@broadcast_progress Int
        [("j", [{ cid := 1, alive := false }, { cid := 2, alive := true }]),
         ("k", [{ cid := 3, alive := true }])] "j" 10 none none).1 "j" =
      some [{ cid := 2, alive := true }]) ∧
    (lookupConns (@broadcast_progress Int
        [("j", [{ cid := 1, alive := false }, { cid := 2, alive := true }]),
         ("k", [{ cid := 3, alive := true }])] "j" 10 none none).1 "k" =
      some [{ cid := 3, alive := true }]) ∧
    ((@broadcast_error Int
        [("j", [{ cid := 1, alive := false }, { cid := 2, alive := true }]),
         ("k", [{ cid := 3, alive := true }])] "j" "boom").1 =
      [("j", [{ cid := 1, alive := false }, { cid := 2, alive := true }]),
       ("k", [{ cid := 3, alive := true }])]) := by
  have h := @c6_broadcast_delivery Int
    [("j", [{ cid := 1, alive := false }, { cid := 2, alive := true }]),
     ("k", [{ cid := 3, alive := true }])] "j"
    [{ cid := 1, alive := false }, { cid := 2, alive := true }]
    10 none none "/api/download/j" "boom" none (by decide)
  refine ⟨by rw [h.1]; decide, by rw [h.2.1]; decide, ?_, ?_, h.2.2.2.2.2.2.2.1⟩
  · rw [h.2.2.1]; decide
  · rw [h.2.2.2.1 "k" (by decide)]; decide

/-- C6 counterexample: `broadcast_error` does not remove a channel whose
send fails — after broadcasting to job `j`, the dead channel (cid 1) is
still in the subscription set, contrary to the claim that every broadcast
operation removes failed channels. -/
theorem c6_counterexample :
    ({ cid := 1, alive := false } : Channel) ∈
      ((lookupConns (@broadcast_error Int
          [("j", [{ cid := 1, alive := false }, { cid := 2, alive := true }])]
          "j" "boom").1 "j").getD []) ∧
    ({ cid := 1, alive := false } : Channel).alive = false := by
  decide

theorem broadcast_progress_message {Val : Type} (conns : Connections)
    (jobId : String) (progress : Int) (stage message : Option String) :
    (@broadcast_progress Val conns jobId progress stage message).2.message =
      { type := "progress", jobId := jobId, progress := some progress
        stage := stage.bind (fun s => if s = "" then none else some s)
        message := message.bind (fun s => if s = "" then none else some s)
        resultUrl := none, stats := none, error := none } := by
  unfold broadcast_progress
  cases lookupConns conns jobId <;> rfl

theorem broadcast_complete_message {Val : Type} (conns : Connections)
    (jobId resultUrl : String) (stats : Option (Stats Val)) :
    (@broadcast_complete Val conns jobId resultUrl stats).2.message =
      { type := "complete", jobId := jobId, progress := some 100
        stage := none, message := none, resultUrl := some resultUrl
        stats := stats.bind (fun s => if s.isEmpty then none else some s)
        error := none } := by
  unfold broadcast_complete
  cases lookupConns conns jobId <;> rfl

theorem broadcast_error_message {Val : Type} (conns : Connections)
    (jobId errorMsg : String) :
    (@broadcast_error Val conns jobId errorMsg).2.message =
      { type := "error", jobId := jobId, progress := none
        stage := none, message := none, resultUrl := none
        stats := none, error := some errorMsg } := by
  unfold broadcast_error
  cases lookupConns conns jobId <;> rfl

theorem broadcast_progress_absent {Val : Type} (conns : Connections)
    (jobId : String) (progress : Int) (stage message : Option String)
    (h : lookupConns conns jobId = none) :
    (@broadcast_progress Val conns jobId progress stage message).1 = conns ∧
    (@broadcast_progress Val conns jobId progress stage message).2.attempted =
      [] ∧
    (@broadcast_progress Val conns jobId progress stage message).2.delivered =
      [] := by
  refine ⟨?_, ?_, ?_⟩ <;> simp [broadcast_progress, h]

/-- A progress broadcast to a set of all-alive channels: nothing is removed,
the entry keeps exactly the same channel list (or the entry is dropped when
it was already empty), other entries unchanged, and the message is attempted
on and delivered to every channel. -/
theorem broadcast_progress_alive {Val : Type} (conns : Connections)
    (jobId : String) (progress : Int) (stage message : Option String)
    (chans : List Channel)
    (hchans : lookupConns conns jobId = some chans)
    (halive : ∀ c ∈ chans, c.alive = true) :
    lookupConns (@broadcast_progress Val conns jobId progress stage message).1
        jobId = (if chans.isEmpty then none else some chans) ∧
    (@broadcast_progress Val conns jobId progress stage message).2.attempted =
      chans.map (fun c => c.cid) ∧
    (@broadcast_progress Val conns jobId progress stage message).2.delivered =
      chans.map (fun c => c.cid) := by
  have hdead : chans.filter (fun c => !c.alive) = [] := by
    rw [List.filter_eq_nil_iff]
    intro c hc
    simp [halive c hc]
  have hlive : chans.filter (fun c => c.alive) = chans :=
    List.filter_eq_self.mpr (fun c hc => by simp [halive c hc])
  have hfold : (chans.filter (fun c => !c.alive)).foldl
      (fun acc c => acc.erase c) chans = chans := by
    rw [hdead]; rfl
  refine ⟨?_, by simp [broadcast_progress, hchans],
    by simp [broadcast_progress, hchans, hlive]⟩
  simp only [broadcast_progress, hchans, hfold]
  by_cases hemp : chans.isEmpty
  · simp [hemp, lookupConns_removeConns_self]
  · have hsome : (lookupConns conns jobId).isSome := by simp [hchans]
    simp [hemp, lookupConns_setConns_self conns jobId chans hsome]

theorem set_status_lookup {Val : Type} (st : Store Val) (jobId : String)
    (status : ProcessingStatus) (error : Option String) (job : JobRecord Val)
    (h : st jobId = some job) :
    (set_status st jobId status error).1 jobId =
      some (job.applyUpdates
        { JobUpdates.empty with
          status := some status
          error :=
            match error with
            | some e => if e = "" then none else some (some e)
            | none => none }) ∧
    ∀ k, k ≠ jobId → (set_status st jobId status error).1 k = st k := by
  simp only [set_status]
  rw [update_job_found st jobId _ job h]
  exact ⟨by simp, fun k hk => by simp [hk]⟩

/-- C4 amended: when the pipeline raises with a non-empty message `m` on a
PENDING job, `process_job` stores the job as FAILED with `error = m`
(all other fields and records untouched) and broadcasts exactly one
error-typed notification carrying `m`, attempted on every currently
subscribed channel; an empty exception message still yields FAILED but
leaves the error field unset (Python truthiness in `set_status`). -/
theorem c4_failure_path {Val : Type} (resultsDir : String) (st : Store Val)
    (conns : Connections) (jobId m : String) (job : JobRecord Val)
    (chans : List Channel)
    (hjob : st jobId = some job) (hpend : job.status = ProcessingStatus.pending)
    (hm : m ≠ "") (hchans : lookupConns conns jobId = some chans)
    (halive : ∀ c ∈ chans, c.alive = true) :
    ((process_job resultsDir st conns jobId (PipelineOutcome.failure m)).store
        jobId =
      some { jobId := job.jobId, filename := job.filename
             inputPath := job.inputPath, outputPath := job.outputPath
             status := ProcessingStatus.failed, error := some m
             stats := job.stats, deviceUsed := job.deviceUsed }) ∧
    (∀ k, k ≠ jobId →
      (process_job resultsDir st conns jobId (PipelineOutcome.failure m)).store k =
        st k) ∧
    ((process_job resultsDir st conns jobId
        (PipelineOutcome.failure m)).events.filter
          (fun e => e.message.type == "error") =
      [{ message := { type := "error", jobId := jobId, progress := none
                      stage := none, message := none, resultUrl := none
                      stats := none, error := some m }
         attempted := chans.map (fun c => c.cid)
         delivered := chans.map (fun c => c.cid) }]) ∧
    ((process_job resultsDir st conns jobId
        (PipelineOutcome.failure m)).response =
      .error { code := 500, detail := "Processing failed: " ++ m }) := by
  have hrun : process_job resultsDir st conns jobId (PipelineOutcome.failure m) =
      { store := (set_status (set_status st jobId ProcessingStatus.processing
          none).1 jobId ProcessingStatus.failed (some m)).1
        conns := (@broadcast_error Val
          (@broadcast_progress Val
            (@broadcast_progress Val conns jobId 10
              (some "preprocessing") (some "Loading image")).1 jobId 20
            (some "line_extraction") (some "Extracting lines")).1 jobId m).1
        events := [(@broadcast_progress Val conns jobId 10
            (some "preprocessing") (some "Loading image")).2,
          (@broadcast_progress Val
            (@broadcast_progress Val conns jobId 10
              (some "preprocessing") (some "Loading image")).1 jobId 20
            (some "line_extraction") (some "Extracting lines")).2,
          (@broadcast_error Val
            (@broadcast_progress Val
              (@broadcast_progress Val conns jobId 10
                (some "preprocessing") (some "Loading image")).1 jobId 20
              (some "line_extraction") (some "Extracting lines")).1 jobId m).2]
        stores := [(set_status st jobId ProcessingStatus.processing none).1,
          (set_status (set_status st jobId ProcessingStatus.processing none).1
            jobId ProcessingStatus.failed (some m)).1]
        response := .error { code := 500
                             detail := "Processing failed: " ++ m } } := by
    simp [process_job, hjob, hpend]
  have hs1 := set_status_lookup st jobId ProcessingStatus.processing none job hjob
  have hs2 := set_status_lookup (set_status st jobId ProcessingStatus.processing
      none).1 jobId ProcessingStatus.failed (some m) _ hs1.1
  refine ⟨?_, ?_, ?_, ?_⟩
  · rw [hrun]
    dsimp only
    rw [hs2.1]
    simp [JobRecord.applyUpdates, JobUpdates.empty, hm]
  · intro k hk
    rw [hrun]
    dsimp only
    rw [hs2.2 k hk, hs1.2 k hk]
  · rw [hrun]
    dsimp only
    have hb1 := @broadcast_progress_alive Val conns jobId 10
      (some "preprocessing") (some "Loading image") chans hchans halive
    by_cases hemp : chans.isEmpty
    · have hchansnil : chans = [] := List.isEmpty_iff.mp hemp
      have hl1 : lookupConns (@broadcast_progress Val conns jobId 10
          (some "preprocessing") (some "Loading image")).1 jobId = none := by
        rw [hb1.1, if_pos hemp]
      have hb2 := @broadcast_progress_absent Val _ jobId 20
        (some "line_extraction") (some "Extracting lines") hl1
      rw [hb2.1]
      simp [List.filter, broadcast_progress_message, broadcast_error_message,
        broadcast_error, hl1, hchansnil]
    · have hl1 : lookupConns (@broadcast_progress Val conns jobId 10
          (some "preprocessing") (some "Loading image")).1 jobId = some chans := by
        rw [hb1.1, if_neg hemp]
      have hb2 := @broadcast_progress_alive Val _ jobId 20
        (some "line_extraction") (some "Extracting lines") chans hl1 halive
      have hl2 : lookupConns (@broadcast_progress Val
          (@broadcast_progress Val conns jobId 10
            (some "preprocessing") (some "Loading image")).1 jobId 20
          (some "line_extraction") (some "Extracting lines")).1 jobId =
          some chans := by
        rw [hb2.1, if_neg hemp]
      have hlive : chans.filter (fun c => c.alive) = chans :=
        List.filter_eq_self.mpr (fun c hc => by simp [halive c hc])
      simp [List.filter, broadcast_progress_message, broadcast_error_message,
        broadcast_error, hl2, hlive]
  · rw [hrun]

/-- Witness for C4: a failing pipeline on a freshly created PENDING job with
one live subscriber. -/
theorem c4_witness :
    ((@process_job Int "/results"
        (create_job emptyStore "j" "f.jpg" "/up/j.jpg" ProcessingStatus.pending)
        [("j", [{ cid := 7, alive := true }])] "j"
        (PipelineOutcome.failure "disk full")).store "j" =
      some { jobId := "j", filename := "f.jpg", inputPath := "/up/j.jpg"
             outputPath := none, status := ProcessingStatus.failed
             error := some "disk full", stats := none, deviceUsed := none }) ∧
    ((@process_job Int "/results"
        (create_job emptyStore "j" "f.jpg" "/up/j.jpg" ProcessingStatus.pending)
        [("j", [{ cid := 7, alive := true }])] "j"
        (PipelineOutcome.failure "disk full")).events.filter
          (fun e => e.message.type == "error") =
      [{ message := { type := "error", jobId := "j", progress := none
                      stage := none, message := none, resultUrl := none
                      stats := none, error := some "disk full" }
         attempted := [7], delivered := [7] }]) := by
  have h := @c4_failure_path Int "/results"
    (create_job emptyStore "j" "f.jpg" "/up/j.jpg" ProcessingStatus.pending)
    [("j", [{ cid := 7, alive := true }])] "j" "disk full"
    { jobId := "j", filename := "f.jpg", inputPath := "/up/j.jpg"
      outputPath := none, status := ProcessingStatus.pending, error := none
      stats := none, deviceUsed := none }
    [{ cid := 7, alive := true }]
    (by decide) (by decide) (by decide) (by decide) (by decide)
  exact ⟨h.1, h.2.2.1⟩

/-- C5 amended: on pipeline success for a freshly created (PENDING) job, the
orchestrator records the output location (always non-empty), sets status to
COMPLETED, leaves the error unset, records the statistics and device only
when they are non-empty (Python truthiness in `set_result`), responds ok,
and broadcasts exactly one complete-typed notification (after three
progress notifications). -/
theorem c5_success_path {Val : Type} (resultsDir : String) (st : Store Val)
    (conns : Connections) (jobId fn ip svg device : String) (stats : Stats Val) :
    ((process_job resultsDir (create_job st jobId fn ip ProcessingStatus.pending)
        conns jobId (PipelineOutcome.success svg stats device)).store jobId =
      some { jobId := jobId, filename := fn, inputPath := ip
             outputPath := some (resultsDir ++ "/" ++ jobId ++ ".svg")
             status := ProcessingStatus.completed, error := none
             stats := if stats.isEmpty then none else some stats
             deviceUsed := if device = "" then none else some device }) ∧
    ((resultsDir ++ "/" ++ jobId ++ ".svg") ≠ "") ∧
    ((process_job resultsDir (create_job st jobId fn ip ProcessingStatus.pending)
        conns jobId (PipelineOutcome.success svg stats device)).events.map
          (fun e => e.message.type) =
      ["progress", "progress", "progress", "complete"]) ∧
    (((process_job resultsDir (create_job st jobId fn ip ProcessingStatus.pending)
        conns jobId (PipelineOutcome.success svg stats device)).events.filter
          (fun e => e.message.type == "complete")).length = 1) ∧
    ((process_job resultsDir (create_job st jobId fn ip ProcessingStatus.pending)
        conns jobId (PipelineOutcome.success svg stats device)).response =
      .ok ()) := by
  have hc : (create_job st jobId fn ip ProcessingStatus.pending) jobId =
      some { jobId := jobId, filename := fn, inputPath := ip, outputPath := none
             status := ProcessingStatus.pending, error := none, stats := none
             deviceUsed := none } := by
    simp [create_job]
  refine ⟨?_, ?_, ?_, ?_, ?_⟩
  · simp [process_job, hc, set_status, set_result, update_job,
      JobRecord.applyUpdates, JobUpdates.empty]
    refine ⟨?_, ?_⟩ <;> split <;> rfl
  · intro hcontra
    have hlen := congrArg String.length hcontra
    have h4 : (".svg" : String).length = 4 := rfl
    have h1 : ("/" : String).length = 1 := rfl
    have h0 : ("" : String).length = 0 := rfl
    rw [String.length_append, String.length_append, String.length_append,
      h4, h1, h0] at hlen
    omega
  · simp [process_job, hc, broadcast_progress_message,
      broadcast_complete_message]
  · simp [process_job, hc, List.filter, broadcast_progress_message,
      broadcast_complete_message]
  · simp [process_job, hc]

/-- Witness for C5 at a concrete successful run with non-empty statistics. -/
theorem c5_witness :
    ((@process_job Int "/results"
        (create_job emptyStore "j" "f.jpg" "/up/j.jpg" ProcessingStatus.pending)
        [] "j"
        (PipelineOutcome.success "<svg></svg>" [("path_count", 42)] "cpu")).store
      "j" =
      some { jobId := "j", filename := "f.jpg", inputPath := "/up/j.jpg"
             outputPath := some ("/results" ++ "/" ++ "j" ++ ".svg")
             status := ProcessingStatus.completed, error := none
             stats := some [("path_count", 42)], deviceUsed := some "cpu" }) ∧
    ((@process_job Int "/results"
        (create_job emptyStore "j" "f.jpg" "/up/j.jpg" ProcessingStatus.pending)
        [] "j"
        (PipelineOutcome.success "<svg></svg>" [("path_count", 42)]
          "cpu")).events.map (fun e => e.message.type) =
      ["progress", "progress", "progress", "complete"]) := by
  have h := @c5_success_path Int "/results" emptyStore [] "j" "f.jpg"
    "/up/j.jpg" "<svg></svg>" "cpu" [("path_count", 42)]
  exact ⟨by simpa using h.1, h.2.2.1⟩

/-- C5 counterexample: when the pipeline succeeds with an empty statistics
dict, the statistics are not recorded — the stored job shows `stats = None`
after completion, contrary to the claim that the orchestrator records the
statistics of every successful run. -/
theorem c5_counterexample :
    (((@process_job Int "/results"
        (create_job emptyStore "j" "f.jpg" "/up/j.jpg" ProcessingStatus.pending)
        [] "j" (PipelineOutcome.success "<svg></svg>" [] "cpu")).store "j").map
      (fun j => j.stats) = some none) ∧
    ((@process_job Int "/results"
        (create_job emptyStore "j" "f.jpg" "/up/j.jpg" ProcessingStatus.pending)
        [] "j" (PipelineOutcome.success "<svg></svg>" [] "cpu")).response =
      .ok ()) ∧
    (((@process_job Int "/results"
        (create_job emptyStore "j" "f.jpg" "/up/j.jpg" ProcessingStatus.pending)
        [] "j" (PipelineOutcome.success "<svg></svg>" [] "cpu")).store "j").map
      (fun j => j.status) = some ProcessingStatus.completed) := by
  exact ⟨by decide, by rfl, by decide⟩

theorem set_result_lookup {Val : Type} (st : Store Val) (jobId outputPath : String)
    (stats : Option (Stats Val)) (deviceUsed : Option String) (job : JobRecord Val)
    (h : st jobId = some job) :
    (set_result st jobId outputPath stats deviceUsed).1 jobId =
      some (job.applyUpdates
        { (JobUpdates.empty : JobUpdates Val) with
          outputPath := some (some outputPath)
          status := some ProcessingStatus.completed
          stats :=
            match stats with
            | some s => if s.isEmpty then none else some (some s)
            | none => none
          deviceUsed :=
            match deviceUsed with
            | some d => if d = "" then none else some (some d)
            | none => none }) ∧
    ∀ k, k ≠ jobId → (set_result st jobId outputPath stats deviceUsed).1 k = st k := by
  simp only [set_result]
  rw [update_job_found st jobId _ job h]
  exact ⟨by simp, fun k hk => by simp [hk]⟩

theorem getLast?_cons_eq_getLastD {α : Type} :
    ∀ (a : α) (l : List α), (a :: l).getLast? = some (l.getLastD a)
  | _, [] => rfl
  | a, b :: l => by
      rw [List.getLast?_cons_cons, List.getLastD_cons]
      exact getLast?_cons_eq_getLastD b l

theorem getLastD_mem_cons {α : Type} :
    ∀ (s : α) (rest : List α) (a : α), (s :: rest).getLastD a ∈ s :: rest
  | _, [], _ => by simp [List.getLastD]
  | s, b :: rest, a => by
      rw [List.getLastD_cons]
      exact List.mem_cons_of_mem s (getLastD_mem_cons b rest s)

/-- One service operation only moves a job's status along the allowed
edges. -/
theorem chain_per_op {Val : Type} (resultsDir : String) (st : Store Val)
    (op : ServiceOp Val)
    (hval : match op with
            | ServiceOp.create j _ _ => st j = none
            | _ => True)
    (id : String) :
    List.Chain' (fun s s' => statusStep (statusOf s id) (statusOf s' id))
      (st :: opStores resultsDir st op) := by
  cases op with
  | create j0 fn ip =>
      simp only [opStores]
      rw [List.chain'_pair]
      by_cases hid : id = j0
      · subst hid
        refine Or.inr (Or.inl ⟨?_, ?_⟩)
        · simp [statusOf, hval]
        · simp [statusOf, create_job]
      · exact Or.inl (by simp [statusOf, create_job, hid])
  | delete j0 =>
      simp only [opStores]
      rw [List.chain'_pair]
      cases hjob : st j0 with
      | none =>
          have hkeep : (delete_job st j0).1 = st := by simp [delete_job, hjob]
          rw [hkeep]
          exact Or.inl rfl
      | some job =>
          by_cases hid : id = j0
          · subst hid
            exact Or.inr (Or.inr (Or.inr (Or.inr (Or.inr
              (by simp [delete_job, hjob, statusOf])))))
          · exact Or.inl (by simp [delete_job, hjob, statusOf, hid])
  | process j0 oc =>
      simp only [opStores]
      cases hjob : st j0 with
      | none =>
          have hs : (process_job resultsDir st [] j0 oc).stores = [] := by
            simp [process_job, hjob]
          rw [hs]
          exact List.chain'_singleton st
      | some job =>
          by_cases hst : job.status = ProcessingStatus.pending
          · have hs1 := set_status_lookup st j0 ProcessingStatus.processing none
              job hjob
            have hedge1 : statusStep (statusOf st id)
                (statusOf (set_status st j0 ProcessingStatus.processing none).1 id) := by
              by_cases hid : id = j0
              · subst hid
                refine Or.inr (Or.inr (Or.inl ⟨?_, ?_⟩))
                · simp [statusOf, hjob, hst]
                · simp [statusOf, hs1.1, JobRecord.applyUpdates]
              · exact Or.inl (by simp [statusOf, hs1.2 id hid])
            cases oc with
            | failure m =>
                have hs : (process_job resultsDir st [] j0
                    (PipelineOutcome.failure m)).stores =
                    [(set_status st j0 ProcessingStatus.processing none).1,
                     (set_status (set_status st j0 ProcessingStatus.processing
                       none).1 j0 ProcessingStatus.failed (some m)).1] := by
                  simp [process_job, hjob, hst]
                rw [hs, List.chain'_cons, List.chain'_pair]
                refine ⟨hedge1, ?_⟩
                have hs2 := set_status_lookup _ j0 ProcessingStatus.failed
                  (some m) _ hs1.1
                by_cases hid : id = j0
                · subst hid
                  refine Or.inr (Or.inr (Or.inr (Or.inr (Or.inl ⟨?_, ?_⟩))))
                  · simp [statusOf, hs1.1, JobRecord.applyUpdates]
                  · simp [statusOf, hs2.1, JobRecord.applyUpdates]
                · exact Or.inl (by simp [statusOf, hs2.2 id hid])
            | success svg stats device =>
                have hs : (process_job resultsDir st [] j0
                    (PipelineOutcome.success svg stats device)).stores =
                    [(set_status st j0 ProcessingStatus.processing none).1,
                     (set_result (set_status st j0 ProcessingStatus.processing
                         none).1 j0 (resultsDir ++ "/" ++ j0 ++ ".svg")
                       (some stats) (some device)).1] := by
                  simp [process_job, hjob, hst]
                rw [hs, List.chain'_cons, List.chain'_pair]
                refine ⟨hedge1, ?_⟩
                have hs2 := set_result_lookup _ j0
                  (resultsDir ++ "/" ++ j0 ++ ".svg") (some stats) (some device)
                  _ hs1.1
                by_cases hid : id = j0
                · subst hid
                  refine Or.inr (Or.inr (Or.inr (Or.inl ⟨?_, ?_⟩)))
                  · simp [statusOf, hs1.1, JobRecord.applyUpdates]
                  · simp [statusOf, hs2.1, JobRecord.applyUpdates]
                · exact Or.inl (by simp [statusOf, hs2.2 id hid])
          · have hs : (process_job resultsDir st [] j0 oc).stores = [] := by
              simp [process_job, hjob, hst]
            rw [hs]
            exact List.chain'_singleton st

theorem c1_chain {Val : Type} (resultsDir : String) :
    ∀ (ops : List (ServiceOp Val)) (st0 : Store Val),
      ValidOps resultsDir st0 ops → ∀ id : String,
      List.Chain' (fun s s' => statusStep (statusOf s id) (statusOf s' id))
        (st0 :: runOps resultsDir st0 ops)
  | [], st0, _, _ => List.chain'_singleton st0
  | op :: ops, st0, hvalid, id => by
      have hchain1 := chain_per_op resultsDir st0 op hvalid.1 id
      have hchain2 := c1_chain resultsDir ops (finalStore resultsDir st0 op)
        hvalid.2 id
      rw [runOps, ← List.cons_append]
      refine hchain1.append hchain2.tail ?_
      intro x hx y hy
      rw [getLast?_cons_eq_getLastD] at hx
      have hxe := Option.some.inj (Option.mem_def.mp hx)
      rw [← hxe]
      exact (List.chain'_cons'.mp hchain2).1 y hy

/-- C1: along any valid sequence of job-service operations (each upload
creates a fresh uuid id), the per-write status trace of every job id follows
only the edges none → PENDING → PROCESSING → COMPLETED | FAILED (plus
stuttering and explicit deletion), and the edge relation admits no
transition out of COMPLETED or FAILED towards another status. -/
theorem c1_status_machine {Val : Type} (resultsDir : String) (st0 : Store Val)
    (ops : List (ServiceOp Val)) (hvalid : ValidOps resultsDir st0 ops)
    (id : String) :
    List.Chain' (fun s s' => statusStep (statusOf s id) (statusOf s' id))
      (st0 :: runOps resultsDir st0 ops) ∧
    (∀ x, statusStep (some ProcessingStatus.completed) (some x) →
      x = ProcessingStatus.completed) ∧
    (∀ x, statusStep (some ProcessingStatus.failed) (some x) →
      x = ProcessingStatus.failed) := by
  refine ⟨c1_chain resultsDir ops st0 hvalid id, ?_, ?_⟩
  · intro x h
    rcases h with h | ⟨h1, h2⟩ | ⟨h1, h2⟩ | ⟨h1, h2⟩ | ⟨h1, h2⟩ | h
    · exact (Option.some.inj h).symm
    · cases h1
    · simp at h1
    · simp at h1
    · simp at h1
    · cases h
  · intro x h
    rcases h with h | ⟨h1, h2⟩ | ⟨h1, h2⟩ | ⟨h1, h2⟩ | ⟨h1, h2⟩ | h
    · exact (Option.some.inj h).symm
    · cases h1
    · simp at h1
    · simp at h1
    · simp at h1
    · cases h

/-- Witness for C1: create then successfully process a job. -/
theorem c1_witness :
    List.Chain'
      (fun s s' => statusStep (statusOf s "j") (statusOf s' "j"))
      (@emptyStore Int ::
        runOps "/results" emptyStore
          [ServiceOp.create "j" "f.jpg" "/up/j.jpg",
           ServiceOp.process "j"
             (PipelineOutcome.success "<svg></svg>" [("path_count", 42)] "cpu")]) :=
  (c1_status_machine "/results" emptyStore
    [ServiceOp.create "j" "f.jpg" "/up/j.jpg",
     ServiceOp.process "j"
       (PipelineOutcome.success "<svg></svg>" [("path_count", 42)] "cpu")]
    ⟨rfl, trivial, trivial⟩ "j").1

/-- One service operation preserves the output/error invariant at every
intermediate store, provided pipeline failure messages are non-empty. -/
theorem inv_per_op {Val : Type} (resultsDir : String) (st : Store Val)
    (op : ServiceOp Val)
    (hfail : match op with
             | ServiceOp.process _ (PipelineOutcome.failure m) => m ≠ ""
             | _ => True)
    (hinv : StoreInv st) :
    ∀ s ∈ opStores resultsDir st op, StoreInv s := by
  cases op with
  | create j0 fn ip =>
      intro s hs
      rcases List.mem_singleton.mp hs with rfl
      intro id jb h
      by_cases hid : id = j0
      · have hj : some { jobId := j0, filename := fn, inputPath := ip
                         outputPath := none, status := ProcessingStatus.pending
                         error := none, stats := none
                         deviceUsed := none } = some jb := by
          rw [← h]
          simp [create_job, hid]
        rcases Option.some.inj hj with rfl
        simp
      · exact hinv id jb (by simpa [create_job, hid] using h)
  | delete j0 =>
      intro s hs
      rcases List.mem_singleton.mp hs with rfl
      cases hjob : st j0 with
      | none =>
          have hkeep : (delete_job st j0).1 = st := by simp [delete_job, hjob]
          rw [hkeep]
          exact hinv
      | some job =>
          intro id jb h
          by_cases hid : id = j0
          · exfalso
            have hnone : (delete_job st j0).1 id = none := by
              simp [delete_job, hjob, hid]
            rw [hnone] at h
            cases h
          · exact hinv id jb (by simpa [delete_job, hjob, hid] using h)
  | process j0 oc =>
      intro s hs
      simp only [opStores] at hs
      cases hjob : st j0 with
      | none =>
          have hz : (process_job resultsDir st [] j0 oc).stores = [] := by
            simp [process_job, hjob]
          rw [hz] at hs
          cases hs
      | some job =>
          by_cases hst : job.status = ProcessingStatus.pending
          · have hout : job.outputPath = none := by
              by_contra hq
              have := (hinv j0 job hjob).1.mp hq
              rw [hst] at this
              cases this
            have herr : job.error = none := by
              by_contra hq
              have := (hinv j0 job hjob).2.mp hq
              rw [hst] at this
              cases this
            have hs1 := set_status_lookup st j0 ProcessingStatus.processing none
              job hjob
            have hinv1 : StoreInv (set_status st j0 ProcessingStatus.processing
                none).1 := by
              intro id jb h
              by_cases hid : id = j0
              · subst hid
                rw [hs1.1] at h
                rcases Option.some.inj h with rfl
                simp [JobRecord.applyUpdates, JobUpdates.empty, hout, herr]
              · exact hinv id jb (by rw [hs1.2 id hid] at h; exact h)
            cases oc with
            | failure m =>
                have hm : m ≠ "" := hfail
                have hz : (process_job resultsDir st [] j0
                    (PipelineOutcome.failure m)).stores =
                    [(set_status st j0 ProcessingStatus.processing none).1,
                     (set_status (set_status st j0 ProcessingStatus.processing
                       none).1 j0 ProcessingStatus.failed (some m)).1] := by
                  simp [process_job, hjob, hst]
                rw [hz] at hs
                rcases List.mem_cons.mp hs with rfl | hs
                · exact hinv1
                rcases List.mem_singleton.mp hs with rfl
                have hs2 := set_status_lookup _ j0 ProcessingStatus.failed
                  (some m) _ hs1.1
                intro id jb h
                by_cases hid : id = j0
                · subst hid
                  rw [hs2.1] at h
                  rcases Option.some.inj h with rfl
                  simp [JobRecord.applyUpdates, JobUpdates.empty, hout, herr, hm]
                · exact hinv1 id jb (by rw [hs2.2 id hid] at h; exact h)
            | success svg stats device =>
                have hz : (process_job resultsDir st [] j0
                    (PipelineOutcome.success svg stats device)).stores =
                    [(set_status st j0 ProcessingStatus.processing none).1,
                     (set_result (set_status st j0 ProcessingStatus.processing
                         none).1 j0 (resultsDir ++ "/" ++ j0 ++ ".svg")
                       (some stats) (some device)).1] := by
                  simp [process_job, hjob, hst]
                rw [hz] at hs
                rcases List.mem_cons.mp hs with rfl | hs
                · exact hinv1
                rcases List.mem_singleton.mp hs with rfl
                have hs2 := set_result_lookup _ j0
                  (resultsDir ++ "/" ++ j0 ++ ".svg") (some stats) (some device)
                  _ hs1.1
                intro id jb h
                by_cases hid : id = j0
                · subst hid
                  rw [hs2.1] at h
                  rcases Option.some.inj h with rfl
                  simp [JobRecord.applyUpdates, JobUpdates.empty, hout, herr]
                · exact hinv1 id jb (by rw [hs2.2 id hid] at h; exact h)
          · have hz : (process_job resultsDir st [] j0 oc).stores = [] := by
              simp [process_job, hjob, hst]
            rw [hz] at hs
            cases hs

theorem inv_finalStore {Val : Type} (resultsDir : String) (st : Store Val)
    (op : ServiceOp Val)
    (hfail : match op with
             | ServiceOp.process _ (PipelineOutcome.failure m) => m ≠ ""
             | _ => True)
    (hinv : StoreInv st) :
    StoreInv (finalStore resultsDir st op) := by
  rw [finalStore]
  cases hOP : opStores resultsDir st op with
  | nil => exact hinv
  | cons s rest =>
      exact inv_per_op resultsDir st op hfail hinv _
        (hOP ▸ getLastD_mem_cons s rest st)

/-- C9 amended: the output-iff-COMPLETED and error-iff-FAILED invariant
holds for every store reachable through the job-service operations (from an
invariant-satisfying store, with non-empty pipeline failure messages); at
the raw storage level arbitrary `set_status`/`update_job` calls can break
it. -/
theorem c9_output_error_invariant {Val : Type} (resultsDir : String) :
    ∀ (ops : List (ServiceOp Val)) (st0 : Store Val),
      StoreInv st0 → NonemptyFailures ops →
      ∀ s ∈ runOps resultsDir st0 ops, StoreInv s
  | [], _, _, _, _, hs => by cases hs
  | op :: ops, st0, hinv, hfails, s, hs => by
      have hfail_op := hfails op (by simp)
      rw [runOps] at hs
      rcases List.mem_append.mp hs with h | h
      · exact inv_per_op resultsDir st0 op hfail_op hinv s h
      · exact c9_output_error_invariant resultsDir ops
          (finalStore resultsDir st0 op)
          (inv_finalStore resultsDir st0 op hfail_op hinv)
          (fun o ho => hfails o (by simp [ho])) s h

/-- Witness for C9: the store after creating a job satisfies the
invariant. -/
theorem c9_witness :
    StoreInv (@create_job Int emptyStore "j" "f.jpg" "/up/j.jpg"
      ProcessingStatus.pending) := by
  have h := @c9_output_error_invariant Int "/results"
    [ServiceOp.create "j" "f.jpg" "/up/j.jpg"] emptyStore
    (fun id jb hcontra => by cases hcontra)
    (fun op hop => by rcases List.mem_singleton.mp hop with rfl; trivial)
  exact h _ (by rw [runOps]; exact List.mem_append_left _ (by simp [opStores]))

/-- C9 counterexample: a record reachable through the raw store operations
alone violates the invariant — `create` then `set_status(COMPLETED)` yields
a COMPLETED record with no output location. -/
theorem c9_counterexample :
    ((@set_status Int
        (create_job emptyStore "j" "f.jpg" "/up/j.jpg" ProcessingStatus.pending)
        "j" ProcessingStatus.completed none).1 "j").map
      (fun j => (j.status, j.outputPath)) =
    some (ProcessingStatus.completed, none) := by
  decide

/-- C4 counterexample: an exception whose message is the empty string leaves
the stored error field unset (`None`), not equal to the message — the claim
as stated fails at `m = ""`. -/
theorem c4_counterexample :
    ((@process_job Int "/results"
        (create_job emptyStore "j" "f.jpg" "/up/j.jpg" ProcessingStatus.pending)
        [] "j" (PipelineOutcome.failure "")).store "j") =
      some { jobId := "j", filename := "f.jpg", inputPath := "/up/j.jpg"
             outputPath := none, status := ProcessingStatus.failed, error := none
             stats := none, deviceUsed := none } := by
  decide

end PhotoVec
